import Mathlib

/-!
# vcli: the `awsconf` command

A shallow embedding of `cmd/awsconf.go`: the reconciliation of the shell dotfile
(`modifyShellProfile`), the choice of the authentication strategy (`loadAwsConfig`),
the role-assumption flow (`assumeRole`) and the command body (`awsconfCmd`).

Go strings are modelled as lists of characters.  Calls into libraries (viper, the AWS
SDK, the operating system) are modelled by an environment that fixes the outcome of
each call.
-/

namespace Vcli

/-- A Go string, as the sequence of its characters.  The program only searches for
ASCII texts and splits at the newline, which on UTF-8 text finds the same places by
character as Go finds by byte. -/
abbrev Str := List Char

/-- A Go `error` value, identified by its message. -/
abbrev Error := String

/-! ## The functions of Go package `strings` that the program calls -/

namespace strings

/-- Whether `sub` occurs in `s` at position 0. -/
def matchAt : Str → Str → Bool
  | _, [] => true
  | [], _ :: _ => false
  | c :: s, d :: sub => c == d && matchAt s sub

/-- Go `strings.Contains(s, sub)`: whether `sub` occurs somewhere in `s`. -/
def Contains : Str → Str → Bool
  | [], sub => matchAt [] sub
  | c :: s, sub => matchAt (c :: s) sub || Contains s sub

/-- Go `strings.Split(s, sep)` for a separator of one character (the program only
splits at the newline): the pieces between the separators, `n + 1` pieces for `n`
separators, so one empty piece for the empty string. -/
def Split : Str → Char → List Str
  | [], _ => [[]]
  | c :: s, sep =>
    if c = sep then [] :: Split s sep
    else
      match Split s sep with
      | [] => [[c]]
      | piece :: pieces => (c :: piece) :: pieces

/-- Go `strings.Join(elems, sep)` for a separator of one character. -/
def Join : List Str → Char → Str
  | [], _ => []
  | [e], _ => e
  | e :: f :: elems, sep => e ++ sep :: Join (f :: elems) sep

/-- Go `unicode.IsSpace`: the white space characters of Unicode. -/
def isSpace (c : Char) : Bool :=
  let n := c.toNat
  (9 ≤ n && n ≤ 13) || n = 32 || n = 133 || n = 160 || n = 5760 ||
  (8192 ≤ n && n ≤ 8202) || n = 8232 || n = 8233 || n = 8239 || n = 8287 || n = 12288

/-- Go `strings.TrimSpace`: `s` without its leading and trailing white space. -/
def TrimSpace (s : Str) : Str :=
  ((s.dropWhile isSpace).reverse.dropWhile isSpace).reverse

end strings

/-! ## Constants and package variables -/

def defaultDotFile : Str := ".zshenv".toList
def defaultAwsRegion : Str := "eu-central-1".toList
def defaultAwsProfile : Str := "default".toList

def accessKeyLine : Str := "export AWS_ACCESS_KEY_ID=".toList
def secretKeyLine : Str := "export AWS_SECRET_ACCESS_KEY=".toList
def sessionTokenLine : Str := "export AWS_SESSION_TOKEN=".toList
def regionLine : Str := "export AWS_REGION=".toList

/-- The package variables bound to the flags of `awsconf`
(`var region`, `var profile`, `var dotFile`). -/
structure Flags where
  region : Str
  profile : Str
  dotFile : Str

/-- The fields of `types.Credentials` that the program reads. -/
structure Credentials where
  AccessKeyId : Str
  SecretAccessKey : Str
  SessionToken : Str

/-! ## `modifyShellProfile` -/

/-- The local variables of the scanning loop of `modifyShellProfile`:
the lines already rewritten and the four flags. -/
structure Scan where
  lines : List Str
  hasAccessKey : Bool
  hasSecretKey : Bool
  hasToken : Bool
  hasRegion : Bool

/-- The loop `for i, line := range lines` of `modifyShellProfile`, run on the lines
that remain; `st` holds the lines already visited, as rewritten, and the flags
reached so far. -/
def scanLoop (accessKey secretKey token awsRegion : Str) :
    List Str → Scan → Scan
  | [], st => st
  | line :: rest, st =>
    if strings.Contains line accessKeyLine then
      scanLoop accessKey secretKey token awsRegion rest
        { st with lines := st.lines ++ [accessKey], hasAccessKey := true }
    else if strings.Contains line secretKeyLine then
      scanLoop accessKey secretKey token awsRegion rest
        { st with lines := st.lines ++ [secretKey], hasSecretKey := true }
    else if strings.Contains line sessionTokenLine then
      scanLoop accessKey secretKey token awsRegion rest
        { st with lines := st.lines ++ [token], hasToken := true }
    else if strings.Contains line regionLine then
      scanLoop accessKey secretKey token awsRegion rest
        { st with lines := st.lines ++ [awsRegion], hasRegion := true }
    else
      scanLoop accessKey secretKey token awsRegion rest
        { st with lines := st.lines ++ [line] }

/-- How a call of a function that may end the process comes back: `ok` (it returned
`nil`), `err e` (it returned the error `e`), `fatal e` (`log.Fatal(e)` ended the
process with status 1). -/
inductive Result where
  | ok
  | err (e : Error)
  | fatal (e : Error)
  deriving DecidableEq, Repr

/-- The outcome of each file operation of `modifyShellProfile`: `none` when the
operation succeeds, `some e` when it fails with `e`. -/
structure Faults where
  OpenFile : Option Error
  ReadAll : Option Error
  Truncate : Option Error
  WriteString : Option Error
  Flush : Option Error

/-- No file operation fails. -/
def noFaults : Faults := ⟨none, none, none, none, none⟩

/-- The function `modifyShellProfile(credentials, dotFilePath)`.  `region` is the
package variable it reads; `file` is the content of the file at `dotFilePath` (`none`
when the file does not exist).  It returns how the call ended and the content of the
file afterwards.  The file is opened with `O_APPEND|O_CREATE|O_RDWR`: it is created
empty when absent and every write goes to its end.  The buffered writer `bf` holds the
appended lines until `bf.Flush()`; flushing an empty buffer does nothing.  A failing
write of the appended lines is modelled at `bf.Flush()` only, and leaves the file as it
was: in the source, text beyond the 4096 bytes of the buffer is written inside
`writeToBuffer`, where a failure ends the process, and a short write leaves a part of the
text in the file.  The statements below are about calls that succeed. -/
def modifyShellProfile (region : Str) (io : Faults) (credentials : Credentials)
    (file : Option Str) : Result × Option Str :=
  let accessKey := accessKeyLine ++ credentials.AccessKeyId
  let secretKey := secretKeyLine ++ credentials.SecretAccessKey
  let token := sessionTokenLine ++ credentials.SessionToken
  let awsRegion := regionLine ++ region
  match io.OpenFile with
  | some e => (Result.fatal e, file)
  | none =>
    let input := file.getD []
    match io.ReadAll with
    | some e => (Result.err e, some input)
    | none =>
      let lines := strings.Split input '\n'
      let st := scanLoop accessKey secretKey token awsRegion lines ⟨[], false, false, false, false⟩
      let rewrite : Result × Str :=
        if st.hasAccessKey && st.hasSecretKey && st.hasToken && st.hasRegion then
          match io.Truncate with
          | some e => (Result.err e, input)
          | none =>
            match io.WriteString with
            | some e => (Result.err e, [])
            | none => (Result.ok, strings.Join st.lines '\n')
        else (Result.ok, input)
      match rewrite with
      | (Result.ok, content) =>
        let bf : Str :=
          (if !st.hasAccessKey then accessKey ++ ['\n'] else []) ++
          (if !st.hasSecretKey then secretKey ++ ['\n'] else []) ++
          (if !st.hasToken then token ++ ['\n'] else []) ++
          (if !st.hasRegion then awsRegion ++ ['\n'] else [])
        if bf = [] then (Result.ok, some content)
        else
          match io.Flush with
          | some e => (Result.err e, some content)
          | none => (Result.ok, some (content ++ bf))
      | (r, content) => (r, some content)

/-! ## `loadAwsConfig`, `assumeRole` and the command -/

/-- The fields of `config.SharedConfig` that the program reads. -/
structure SharedConfig where
  RoleARN : Str
  MFASerial : Str
  deriving DecidableEq, Repr

/-- The token providers of package `stscreds` that the program names. -/
inductive TokenProvider where
  | StdinTokenProvider
  deriving DecidableEq, Repr

/-- The fields of `stscreds.AssumeRoleOptions` that the program sets; a field that is
not set keeps its zero value (`none`). -/
structure AssumeRoleOptions where
  RoleARN : Str
  SerialNumber : Option Str
  TokenProvider : Option TokenProvider
  deriving DecidableEq, Repr

/-- The options handed to `config.LoadDefaultConfig`: the profile given to
`config.WithSharedConfigProfile` and, when `config.WithAssumeRoleCredentialOptions` is
given, the fields that its function sets. -/
structure LoadOptions where
  SharedConfigProfile : Str
  AssumeRoleCredentialOptions : Option AssumeRoleOptions
  deriving DecidableEq, Repr

/-- An `aws.Config`, identified by the options it was loaded with. -/
structure Config where
  options : LoadOptions
  deriving DecidableEq, Repr

/-- The fields of `sts.AssumeRoleInput` that the program sets. -/
structure AssumeRoleInput where
  RoleArn : Str
  RoleSessionName : Str
  deriving DecidableEq, Repr

/-- The outcome of every call that leaves the program. -/
structure Env where
  /-- The call `viper.ReadInConfig()`: `none` when the document was read. -/
  ReadInConfig : Option Error
  /-- The call `viper.GetString(key)`: the empty string for a missing key. -/
  GetString : Str → Str
  /-- The call `config.LoadSharedConfigProfile(ctx, profile)`. -/
  LoadSharedConfigProfile : Str → Except Error SharedConfig
  /-- The call `config.LoadDefaultConfig(ctx, options...)`. -/
  LoadDefaultConfig : LoadOptions → Except Error Config
  /-- The call `AssumeRole` of the STS client made from a configuration. -/
  AssumeRole : Config → AssumeRoleInput → Except Error Credentials
  /-- The identifier returned by `nanoid.New()`. -/
  nanoidNew : Str
  /-- The call `os.UserHomeDir()`. -/
  UserHomeDir : Except Error Str
  /-- The outcome of the file operations of `modifyShellProfile`. -/
  faults : Faults

/-- The three printing functions of the program. -/
inductive Color where
  | red
  | cyan
  | green
  deriving DecidableEq, Repr

/-- The calls of `assumeRole`, for the record of what a run executed. -/
inductive Call where
  | loadSharedAwsProfileConfig (profile : Str)
  | loadAwsConfig (conf : SharedConfig)
  | TakeRole (input : AssumeRoleInput)
  | UserHomeDir
  | modifyShellProfile (dotFilePath : Str)
  deriving DecidableEq, Repr

/-- What a run acts on: the files (content by path), the lines printed by `printRed`,
`printCyan` and `printGreen` (each with its arguments), the errors written by
`log.Fatal`, and the record of the calls made, in order. -/
structure World where
  files : Str → Option Str
  printed : List (Color × List Str)
  logged : List Error
  calls : List Call

/-- Print one line with the given arguments. -/
def World.print (w : World) (c : Color) (args : List Str) : World :=
  { w with printed := w.printed ++ [(c, args)] }

/-- Record a call. -/
def World.call (w : World) (c : Call) : World :=
  { w with calls := w.calls ++ [c] }

/-- Replace the content of the file at `path`. -/
def World.setFile (w : World) (path : Str) (content : Option Str) : World :=
  { w with files := fun p => if p = path then content else w.files p }

/-- The function `loadSharedAwsProfileConfig(profile)`. -/
def loadSharedAwsProfileConfig (env : Env) (profile : Str) : Except Error SharedConfig :=
  env.LoadSharedConfigProfile profile

/-- The options that `loadAwsConfig(conf)` hands to `config.LoadDefaultConfig` in the
branch it takes.  `profile` is the package variable `profile` (the function has no
parameter or local variable of that name). -/
def loadAwsConfigOptions (profile : Str) (conf : SharedConfig) : LoadOptions :=
  let roleArn := conf.RoleARN
  let mfaSerial := conf.MFASerial
  if strings.TrimSpace roleArn ≠ [] ∧ strings.TrimSpace mfaSerial ≠ [] then
    ⟨profile, some ⟨roleArn, some mfaSerial, some TokenProvider.StdinTokenProvider⟩⟩
  else if strings.TrimSpace roleArn ≠ [] then
    ⟨profile, some ⟨roleArn, none, none⟩⟩
  else
    ⟨profile, none⟩

/-- The function `loadAwsConfig(conf)`; `profile` is the package variable. -/
def loadAwsConfig (profile : Str) (env : Env) (conf : SharedConfig) : Except Error Config :=
  env.LoadDefaultConfig (loadAwsConfigOptions profile conf)

/-- The function `TakeRole(c, api, input)`, with the client made from `cfg`. -/
def TakeRole (env : Env) (cfg : Config) (input : AssumeRoleInput) : Except Error Credentials :=
  env.AssumeRole cfg input

/-- The function `assumeRole(roleArn, profile)`.  `g` holds the package variables; the
parameter `profile` hides the package variable of the same name inside this function
only. -/
def assumeRole (g : Flags) (env : Env) (roleArn : Str) (profile : Str) (w : World) :
    Result × World :=
  let w := w.call (Call.loadSharedAwsProfileConfig profile)
  match loadSharedAwsProfileConfig env profile with
  | Except.error e => (Result.err e, w.print Color.red ["unable to load aws profile config".toList])
  | Except.ok sharedConfig =>
    let w := w.call (Call.loadAwsConfig sharedConfig)
    match loadAwsConfig g.profile env sharedConfig with
    | Except.error e => (Result.err e, w.print Color.red ["unable to initialize aws config".toList])
    | Except.ok cfg =>
      let id := env.nanoidNew
      let input : AssumeRoleInput := ⟨roleArn, id⟩
      let w := w.call (Call.TakeRole input)
      match TakeRole env cfg input with
      | Except.error e => (Result.err e, w.print Color.red ["error assuming the role:".toList])
      | Except.ok credentials =>
        let w := w.print Color.cyan ["role assumed, session id:".toList, id]
        let w := w.call Call.UserHomeDir
        match env.UserHomeDir with
        | Except.error e => (Result.err e, w)
        | Except.ok dirname =>
          let dotFilePath := dirname ++ "/".toList ++ g.dotFile
          let w := w.print Color.cyan ["exporting temporary AWS credentials to: ".toList, dotFilePath]
          let w := w.call (Call.modifyShellProfile dotFilePath)
          match modifyShellProfile g.region env.faults credentials (w.files dotFilePath) with
          | (Result.ok, file) =>
            let w := w.setFile dotFilePath file
            let w := w.print Color.green ["done".toList]
            let w := w.print Color.green
              [("To get started with using AWS you may need to restart your current shell.\n" ++
                "This would reload your environment to include latest temporary AWS credentials.\n").toList]
            let w := w.print Color.green
              ["To configure your current shell, run:\nsource $HOME/".toList ++ g.dotFile]
            (Result.ok, w)
          | (r, file) => (r, w.setFile dotFilePath file)

/-- The body `Run` of `awsconfCmd` followed by the end of the process: the exit status
and the world at the end.  When `Run` returns, `Execute` and `main` return and the
status is 0; `log.Fatal(err)` writes the error and ends the process with status 1. -/
def awsconfCmd (g : Flags) (env : Env) (w : World) : Nat × World :=
  match env.ReadInConfig with
  | none =>
    let roleArn := env.GetString ("aws.".toList ++ g.profile ++ ".roleArn".toList)
    let awsProfile := env.GetString ("aws.".toList ++ g.profile ++ ".awsProfile".toList)
    let w := w.print Color.cyan ["Profile:".toList, awsProfile]
    let w := w.print Color.cyan ["Role:".toList, roleArn]
    let w := w.print Color.cyan ["Region:".toList, g.region]
    let w := w.print Color.cyan ["Shell dotfile:".toList, g.dotFile]
    match assumeRole g env roleArn awsProfile w with
    | (Result.ok, w) => (0, w)
    | (Result.err e, w) => (1, { w with logged := w.logged ++ [e] })
    | (Result.fatal e, w) => (1, { w with logged := w.logged ++ [e] })
  | some _ => (0, w)

/-! ## Vocabulary of the statements -/

/-- The four recognized kinds of line, in the order in which the loop tests them. -/
inductive Kind where
  | accessKey
  | secretKey
  | sessionToken
  | region
  deriving DecidableEq, Repr

/-- The text by which a kind is recognized. -/
def marker : Kind → Str
  | Kind.accessKey => accessKeyLine
  | Kind.secretKey => secretKeyLine
  | Kind.sessionToken => sessionTokenLine
  | Kind.region => regionLine

/-- The branch of the loop body that a line takes: the first kind, in the order access
key, secret key, session token, region, whose marker the line contains; `none` when it
contains no marker. -/
def lineKind (line : Str) : Option Kind :=
  if strings.Contains line accessKeyLine then some Kind.accessKey
  else if strings.Contains line secretKeyLine then some Kind.secretKey
  else if strings.Contains line sessionTokenLine then some Kind.sessionToken
  else if strings.Contains line regionLine then some Kind.region
  else none

/-- The candidate line of a kind: the values `accessKey`, `secretKey`, `token`,
`awsRegion` computed at the start of `modifyShellProfile`. -/
def candidate (region : Str) (credentials : Credentials) : Kind → Str
  | Kind.accessKey => accessKeyLine ++ credentials.AccessKeyId
  | Kind.secretKey => secretKeyLine ++ credentials.SecretAccessKey
  | Kind.sessionToken => sessionTokenLine ++ credentials.SessionToken
  | Kind.region => regionLine ++ region

/-- The lines of a file content, as `modifyShellProfile` splits it. -/
def fileLines (content : Str) : List Str := strings.Split content '\n'

/-- Whether a kind is found in a file content: some line takes the branch of the kind. -/
def found (k : Kind) (content : Str) : Bool :=
  (fileLines content).any (fun line => lineKind line == some k)

/-- What the loop writes at the place of a line. -/
def rewriteLine (region : Str) (credentials : Credentials) (line : Str) : Str :=
  match lineKind line with
  | some k => candidate region credentials k
  | none => line

/-- The number of lines of a file content that hold the marker of `k`. -/
def markerCount (k : Kind) (content : Str) : Nat :=
  (fileLines content).countP (fun line => strings.Contains line (marker k))

/-- The text that the append-only path writes at the end of the file: the candidate
line of each kind that is not found, in the order of the four tests, each followed by a
newline. -/
def missingLines (region : Str) (credentials : Credentials) (content : Str) : Str :=
  (if found Kind.accessKey content then [] else candidate region credentials Kind.accessKey ++ ['\n']) ++
  (if found Kind.secretKey content then [] else candidate region credentials Kind.secretKey ++ ['\n']) ++
  (if found Kind.sessionToken content then [] else candidate region credentials Kind.sessionToken ++ ['\n']) ++
  (if found Kind.region content then [] else candidate region credentials Kind.region ++ ['\n'])

/-! ## Sample runs -/

/-- A world with no file, nothing printed and no call made. -/
def emptyWorld : World := ⟨fun _ => none, [], [], []⟩

/-- Flags of a run `awsconf --profile dev`, the other flags at their defaults. -/
def devFlags : Flags := ⟨defaultAwsRegion, "dev".toList, defaultDotFile⟩

/-- An environment in which the configuration maps the key `dev` to the role
`arn:aws:iam::1:role/target` and the authentication profile `sso-main`, and in which
`sso-main` is the only profile of the shared AWS configuration: loading any other
profile fails.  Every other call succeeds. -/
def devEnv : Env where
  ReadInConfig := none
  GetString := fun key =>
    if key = "aws.dev.roleArn".toList then "arn:aws:iam::1:role/target".toList
    else if key = "aws.dev.awsProfile".toList then "sso-main".toList
    else []
  LoadSharedConfigProfile := fun profile =>
    if profile = "sso-main".toList then Except.ok ⟨[], []⟩
    else Except.error "failed to get shared config profile"
  LoadDefaultConfig := fun options =>
    if options.SharedConfigProfile = "sso-main".toList then Except.ok ⟨options⟩
    else Except.error "failed to get shared config profile"
  AssumeRole := fun _ _ => Except.ok ⟨"AKIA1".toList, "s3cr3t".toList, "tok1".toList⟩
  nanoidNew := "V1StGXR8_Z5jdHi6B-myT".toList
  UserHomeDir := Except.ok "/home/u".toList
  faults := noFaults

/-- An environment in which the remote role-assumption call is refused and every
earlier call succeeds. -/
def refusedEnv : Env where
  ReadInConfig := none
  GetString := fun _ => []
  LoadSharedConfigProfile := fun _ => Except.ok ⟨[], []⟩
  LoadDefaultConfig := fun options => Except.ok ⟨options⟩
  AssumeRole := fun _ _ => Except.error "AccessDenied"
  nanoidNew := "V1StGXR8_Z5jdHi6B-myT".toList
  UserHomeDir := Except.ok "/home/u".toList
  faults := noFaults

/-! ## Lemmas on `strings` -/

namespace strings

theorem Split_cons_shape (s : Str) (sep : Char) : ∃ piece pieces, Split s sep = piece :: pieces := by
  induction s with
  | nil => exact ⟨[], [], rfl⟩
  | cons c s ih =>
    obtain ⟨p, ps, h⟩ := ih
    by_cases hc : c = sep
    · exact ⟨[], Split s sep, by simp [Split, hc]⟩
    · exact ⟨c :: p, ps, by simp [Split, hc, h]⟩

theorem Split_ne_nil (s : Str) (sep : Char) : Split s sep ≠ [] := by
  obtain ⟨p, ps, h⟩ := Split_cons_shape s sep
  simp [h]

theorem Join_cons_cons (c : Char) (p : Str) (ps : List Str) (sep : Char) :
    Join ((c :: p) :: ps) sep = c :: Join (p :: ps) sep := by
  cases ps <;> simp [Join]

theorem Join_Split (s : Str) (sep : Char) : Join (Split s sep) sep = s := by
  induction s with
  | nil => simp [Split, Join]
  | cons c s ih =>
    obtain ⟨p, ps, h⟩ := Split_cons_shape s sep
    by_cases hc : c = sep
    · rw [h] at ih
      simp [Split, hc, h, Join, ih]
    · rw [h] at ih
      simp [Split, hc, h, Join_cons_cons, ih]

theorem Split_append_sep (a b : Str) (sep : Char) :
    Split (a ++ sep :: b) sep = Split a sep ++ Split b sep := by
  induction a with
  | nil => simp [Split]
  | cons c a ih =>
    obtain ⟨p, ps, h⟩ := Split_cons_shape a sep
    by_cases hc : c = sep
    · simp [Split, hc, ih]
    · simp [Split, hc, ih, h]

theorem Split_of_not_mem (s : Str) (sep : Char) (h : sep ∉ s) : Split s sep = [s] := by
  induction s with
  | nil => simp [Split]
  | cons c s ih =>
    simp only [List.mem_cons, not_or] at h
    have hc : c ≠ sep := fun e => h.1 e.symm
    simp [Split, hc, ih h.2]

theorem not_mem_of_mem_Split (s : Str) (sep : Char) :
    ∀ piece ∈ Split s sep, sep ∉ piece := by
  induction s with
  | nil => simp [Split]
  | cons c s ih =>
    obtain ⟨p, ps, h⟩ := Split_cons_shape s sep
    rw [h] at ih
    by_cases hc : c = sep
    · intro piece hp
      simp only [Split, hc, if_true, List.mem_cons, h] at hp
      rcases hp with rfl | hp
      · simp
      · exact ih piece (by simpa using hp)
    · intro piece hp
      simp only [Split, hc, if_false, h, List.mem_cons] at hp
      rcases hp with rfl | hp
      · have := ih p (by simp)
        simp only [List.mem_cons, not_or]
        exact ⟨fun e => hc e.symm, this⟩
      · exact ih piece (by simp [hp])

theorem Split_Join (ls : List Str) (sep : Char) (hne : ls ≠ [])
    (h : ∀ l ∈ ls, sep ∉ l) : Split (Join ls sep) sep = ls := by
  induction ls with
  | nil => exact absurd rfl hne
  | cons e rest ih =>
    cases rest with
    | nil => simpa [Join] using Split_of_not_mem e sep (h e (by simp))
    | cons f rest =>
      have h1 := Split_of_not_mem e sep (h e (by simp))
      have h2 := ih (by simp) (fun l hl => h l (by simp [hl]))
      simp only [Join]
      rw [Split_append_sep, h1, h2]
      rfl

end strings

/-! ## The loop and the two paths of `modifyShellProfile` -/

theorem scanLoop_eq (region : Str) (credentials : Credentials) (ls : List Str) (st : Scan) :
    scanLoop (candidate region credentials Kind.accessKey)
        (candidate region credentials Kind.secretKey)
        (candidate region credentials Kind.sessionToken)
        (candidate region credentials Kind.region) ls st =
      ⟨st.lines ++ ls.map (rewriteLine region credentials),
        st.hasAccessKey || ls.any (fun line => lineKind line == some Kind.accessKey),
        st.hasSecretKey || ls.any (fun line => lineKind line == some Kind.secretKey),
        st.hasToken || ls.any (fun line => lineKind line == some Kind.sessionToken),
        st.hasRegion || ls.any (fun line => lineKind line == some Kind.region)⟩ := by
  induction ls generalizing st with
  | nil => simp [scanLoop]
  | cons line rest ih =>
    by_cases h1 : strings.Contains line accessKeyLine = true
    · have hk : lineKind line = some Kind.accessKey := by simp [lineKind, h1]
      simp [scanLoop, ih, rewriteLine, hk, h1, Bool.or_assoc, show ∀ a b : Kind, (a == b) = decide (a = b) from fun _ _ => rfl]
    · by_cases h2 : strings.Contains line secretKeyLine = true
      · have hk : lineKind line = some Kind.secretKey := by simp [lineKind, h1, h2]
        simp [scanLoop, ih, rewriteLine, hk, h1, h2, Bool.or_assoc, show ∀ a b : Kind, (a == b) = decide (a = b) from fun _ _ => rfl]
      · by_cases h3 : strings.Contains line sessionTokenLine = true
        · have hk : lineKind line = some Kind.sessionToken := by simp [lineKind, h1, h2, h3]
          simp [scanLoop, ih, rewriteLine, hk, h1, h2, h3, Bool.or_assoc, show ∀ a b : Kind, (a == b) = decide (a = b) from fun _ _ => rfl]
        · by_cases h4 : strings.Contains line regionLine = true
          · have hk : lineKind line = some Kind.region := by simp [lineKind, h1, h2, h3, h4]
            simp [scanLoop, ih, rewriteLine, hk, h1, h2, h3, h4, Bool.or_assoc, show ∀ a b : Kind, (a == b) = decide (a = b) from fun _ _ => rfl]
          · have hk : lineKind line = none := by simp [lineKind, h1, h2, h3, h4]
            simp [scanLoop, ih, rewriteLine, hk, h1, h2, h3, h4]

/-- The file that a successful call of `modifyShellProfile` leaves: the rewritten lines
when the four kinds are found, the old content followed by the missing lines
otherwise. -/
theorem modifyShellProfile_ok (region : Str) (io : Faults) (credentials : Credentials)
    (file : Option Str)
    (hok : (modifyShellProfile region io credentials file).1 = Result.ok) :
    (modifyShellProfile region io credentials file).2 =
      some (if found Kind.accessKey (file.getD []) ∧ found Kind.secretKey (file.getD []) ∧
              found Kind.sessionToken (file.getD []) ∧ found Kind.region (file.getD []) then
            strings.Join ((fileLines (file.getD [])).map (rewriteLine region credentials)) '\n'
          else file.getD [] ++ missingLines region credentials (file.getD [])) := by
  have hs := scanLoop_eq region credentials (strings.Split (file.getD []) '\n')
    ⟨[], false, false, false, false⟩
  simp only [candidate] at hs
  unfold modifyShellProfile at hok ⊢
  simp only [hs] at hok ⊢
  simp only [Bool.false_or, List.nil_append] at hok ⊢
  cases hO : io.OpenFile with
  | some e => simp [hO] at hok
  | none =>
    cases hR : io.ReadAll with
    | some e => simp [hO, hR] at hok
    | none =>
      simp only [hO, hR] at hok ⊢
      cases hT : io.Truncate <;> cases hW : io.WriteString <;> cases hF : io.Flush <;>
      cases h1 : (strings.Split (file.getD []) '\n').any (fun line => lineKind line == some Kind.accessKey) <;>
      cases h2 : (strings.Split (file.getD []) '\n').any (fun line => lineKind line == some Kind.secretKey) <;>
      cases h3 : (strings.Split (file.getD []) '\n').any (fun line => lineKind line == some Kind.sessionToken) <;>
      cases h4 : (strings.Split (file.getD []) '\n').any (fun line => lineKind line == some Kind.region) <;>
      simp [hT, hW, hF, h1, h2, h3, h4, found, fileLines, missingLines, candidate] at hok ⊢

/-- With no failing file operation the call succeeds, whatever the file holds. -/
theorem modifyShellProfile_noFaults (region : Str) (credentials : Credentials)
    (file : Option Str) :
    (modifyShellProfile region noFaults credentials file).1 = Result.ok := by
  unfold modifyShellProfile
  simp only [noFaults]
  generalize scanLoop _ _ _ _ _ _ = st
  rcases st with ⟨ls, _ | _, _ | _, _ | _, _ | _⟩ <;> simp

theorem found_nil (k : Kind) : found k [] = false := by
  cases k <;> decide

theorem newline_not_mem_candidate (region : Str) (credentials : Credentials)
    (hnl : ∀ v ∈ [credentials.AccessKeyId, credentials.SecretAccessKey,
      credentials.SessionToken, region], '\n' ∉ v) (k : Kind) :
    '\n' ∉ candidate region credentials k := by
  have h1 : '\n' ∉ accessKeyLine := by decide
  have h2 : '\n' ∉ secretKeyLine := by decide
  have h3 : '\n' ∉ sessionTokenLine := by decide
  have h4 : '\n' ∉ regionLine := by decide
  cases k <;> simp only [candidate, List.mem_append, not_or]
  · exact ⟨h1, hnl _ (by simp)⟩
  · exact ⟨h2, hnl _ (by simp)⟩
  · exact ⟨h3, hnl _ (by simp)⟩
  · exact ⟨h4, hnl _ (by simp)⟩

theorem newline_not_mem_rewriteLine (region : Str) (credentials : Credentials)
    (hnl : ∀ v ∈ [credentials.AccessKeyId, credentials.SecretAccessKey,
      credentials.SessionToken, region], '\n' ∉ v) (line : Str) (hline : '\n' ∉ line) :
    '\n' ∉ rewriteLine region credentials line := by
  unfold rewriteLine
  cases lineKind line with
  | none => exact hline
  | some k => exact newline_not_mem_candidate region credentials hnl k

/-- When no value holds a newline, the lines of the rewritten file are the rewritten
lines. -/
theorem fileLines_rewritten (region : Str) (credentials : Credentials)
    (hnl : ∀ v ∈ [credentials.AccessKeyId, credentials.SecretAccessKey,
      credentials.SessionToken, region], '\n' ∉ v) (content : Str) :
    fileLines (strings.Join ((fileLines content).map (rewriteLine region credentials)) '\n') =
      (fileLines content).map (rewriteLine region credentials) := by
  unfold fileLines
  apply strings.Split_Join
  · simpa using strings.Split_ne_nil content '\n'
  · intro l hl
    obtain ⟨line, hline, rfl⟩ := List.mem_map.mp hl
    exact newline_not_mem_rewriteLine region credentials hnl line
      (strings.not_mem_of_mem_Split content '\n' line hline)

/-- Appending text to a content leaves every terminated line in place: the pieces
before the last one are kept and the last piece is continued by the appended text. -/
theorem strings.Split_append (s : Str) (sep : Char) :
    ∃ init last, strings.Split s sep = init ++ [last] ∧ sep ∉ last ∧
      ∀ t, strings.Split (s ++ t) sep = init ++ strings.Split (last ++ t) sep := by
  induction s with
  | nil => exact ⟨[], [], by simp [strings.Split], by simp, by simp⟩
  | cons c s ih =>
    obtain ⟨init, last, h1, h2, h3⟩ := ih
    by_cases hc : c = sep
    · refine ⟨[] :: init, last, by simp [strings.Split, hc, h1], h2, ?_⟩
      intro t
      simp [strings.Split, hc, h3 t]
    · cases init with
      | nil =>
        refine ⟨[], c :: last, by simp [strings.Split, hc, h1], ?_, ?_⟩
        · simp only [List.mem_cons, not_or]
          exact ⟨fun e => hc e.symm, h2⟩
        · intro t
          have := h3 t
          simp only [List.nil_append] at this
          simp [strings.Split, hc, this]
      | cons x xs =>
        refine ⟨(c :: x) :: xs, last, by simp [strings.Split, hc, h1], h2, ?_⟩
        intro t
        simp [strings.Split, hc, h3 t]

/-- C1, as the code has it: on the append-only path (fewer than four kinds found, a
kind being found when some line takes its branch in the loop, that is when it is the
first kind, in the order of the tests, whose marker the line holds) a successful call
leaves the old content, byte for byte, followed by the candidate line of each kind that
was not found, in the order access key, secret key, session token, region, each with a
newline; every line of the old file that ends with a newline is the same line of the new
file, found kinds included. -/
theorem modifyShellProfile_append_only (region : Str) (io : Faults)
    (credentials : Credentials) (content : Str)
    (hok : (modifyShellProfile region io credentials (some content)).1 = Result.ok)
    (hfew : ¬ (found Kind.accessKey content = true ∧ found Kind.secretKey content = true ∧
      found Kind.sessionToken content = true ∧ found Kind.region content = true)) :
    (modifyShellProfile region io credentials (some content)).2 =
        some (content ++
          ((if found Kind.accessKey content then []
            else accessKeyLine ++ credentials.AccessKeyId ++ ['\n']) ++
           (if found Kind.secretKey content then []
            else secretKeyLine ++ credentials.SecretAccessKey ++ ['\n']) ++
           (if found Kind.sessionToken content then []
            else sessionTokenLine ++ credentials.SessionToken ++ ['\n']) ++
           (if found Kind.region content then []
            else regionLine ++ region ++ ['\n']))) ∧
      ∀ out, (modifyShellProfile region io credentials (some content)).2 = some out →
        ∀ i, i + 1 < (fileLines content).length →
          (fileLines out)[i]? = (fileLines content)[i]? := by
  have h := modifyShellProfile_ok region io credentials (some content) hok
  simp only [Option.getD_some] at h
  rw [if_neg hfew] at h
  refine ⟨by simpa [missingLines, candidate] using h, ?_⟩
  intro out hout i hi
  rw [h] at hout
  have hout : out = content ++ missingLines region credentials content :=
    (Option.some.inj hout).symm
  obtain ⟨init, last, h1, -, h3⟩ := strings.Split_append content '\n'
  have h4 := h3 (missingLines region credentials content)
  simp only [fileLines, hout, h4, h1] at hi ⊢
  have hlt : i < init.length := by simpa using hi
  rw [List.getElem?_append_left hlt, List.getElem?_append_left hlt]

/-- The scenario of C1: with only the region line present, the two old lines stay
(the region keeps `us-east-1`) and the three missing lines are appended. -/
theorem modifyShellProfile_append_only_witness :
    (modifyShellProfile "eu-west-1".toList noFaults
        ⟨"AKIA1".toList, "s3cr3t".toList, "tok1".toList⟩
        (some "export AWS_REGION=us-east-1\nexport FOO=1\n".toList)).2 =
      some ("export AWS_REGION=us-east-1\nexport FOO=1\n".toList ++
        "export AWS_ACCESS_KEY_ID=AKIA1\nexport AWS_SECRET_ACCESS_KEY=s3cr3t\nexport AWS_SESSION_TOKEN=tok1\n".toList) ∧
    (fileLines ("export AWS_REGION=us-east-1\nexport FOO=1\n".toList ++
        "export AWS_ACCESS_KEY_ID=AKIA1\nexport AWS_SECRET_ACCESS_KEY=s3cr3t\nexport AWS_SESSION_TOKEN=tok1\n".toList))[0]? =
      (fileLines "export AWS_REGION=us-east-1\nexport FOO=1\n".toList)[0]? ∧
    (fileLines ("export AWS_REGION=us-east-1\nexport FOO=1\n".toList ++
        "export AWS_ACCESS_KEY_ID=AKIA1\nexport AWS_SECRET_ACCESS_KEY=s3cr3t\nexport AWS_SESSION_TOKEN=tok1\n".toList))[1]? =
      (fileLines "export AWS_REGION=us-east-1\nexport FOO=1\n".toList)[1]? :=
  let h := modifyShellProfile_append_only "eu-west-1".toList noFaults
    ⟨"AKIA1".toList, "s3cr3t".toList, "tok1".toList⟩
    "export AWS_REGION=us-east-1\nexport FOO=1\n".toList (by decide) (by decide)
  ⟨h.1, h.2 _ h.1 0 (by decide), h.2 _ h.1 1 (by decide)⟩

set_option maxRecDepth 100000 in
/-- C1 as stated fails in two ways.  A line that holds the markers of two kinds is
recognized as the first only: on a file whose one line holds the access key and the
region marker, the region line is appended although the region marker is on a line of
the file.  And a last line without a newline is continued by the first appended line: the
found region line `export AWS_REGION=us-east-1` is no line of the new file. -/
theorem modifyShellProfile_append_only_counterexample :
    (markerCount Kind.region "export AWS_ACCESS_KEY_ID=a export AWS_REGION=b\n".toList = 1 ∧
      modifyShellProfile "eu-west-1".toList noFaults
          ⟨"AKIA1".toList, "s3cr3t".toList, "tok1".toList⟩
          (some "export AWS_ACCESS_KEY_ID=a export AWS_REGION=b\n".toList) =
        (Result.ok, some ("export AWS_ACCESS_KEY_ID=a export AWS_REGION=b\n" ++
          "export AWS_SECRET_ACCESS_KEY=s3cr3t\nexport AWS_SESSION_TOKEN=tok1\n" ++
          "export AWS_REGION=eu-west-1\n").toList)) ∧
    (found Kind.region "export AWS_REGION=us-east-1".toList = true ∧
      modifyShellProfile "eu-west-1".toList noFaults
          ⟨"AKIA1".toList, "s3cr3t".toList, "tok1".toList⟩
          (some "export AWS_REGION=us-east-1".toList) =
        (Result.ok, some ("export AWS_REGION=us-east-1export AWS_ACCESS_KEY_ID=AKIA1\n" ++
          "export AWS_SECRET_ACCESS_KEY=s3cr3t\nexport AWS_SESSION_TOKEN=tok1\n").toList) ∧
      fileLines "export AWS_REGION=us-east-1".toList = ["export AWS_REGION=us-east-1".toList] ∧
      "export AWS_REGION=us-east-1".toList ∉
        fileLines ("export AWS_REGION=us-east-1export AWS_ACCESS_KEY_ID=AKIA1\n" ++
          "export AWS_SECRET_ACCESS_KEY=s3cr3t\nexport AWS_SESSION_TOKEN=tok1\n").toList) := by
  decide

/-- C4, as the code has it: when no supplied value holds a newline, a successful call on
an empty or absent file leaves exactly four lines: the candidate lines of the access key,
the secret key, the session token and the region, in this order, each carrying the
supplied value and each followed by a newline (the pieces of the content are these four
lines and the empty piece after the last newline). -/
theorem modifyShellProfile_empty (region : Str) (io : Faults) (credentials : Credentials)
    (file : Option Str)
    (hnl : ∀ v ∈ [credentials.AccessKeyId, credentials.SecretAccessKey,
      credentials.SessionToken, region], '\n' ∉ v)
    (hempty : file = none ∨ file = some [])
    (hok : (modifyShellProfile region io credentials file).1 = Result.ok) :
    ∃ out : Str, (modifyShellProfile region io credentials file).2 = some out ∧
      out = accessKeyLine ++ credentials.AccessKeyId ++ ['\n'] ++
        (secretKeyLine ++ credentials.SecretAccessKey ++ ['\n']) ++
        (sessionTokenLine ++ credentials.SessionToken ++ ['\n']) ++
        (regionLine ++ region ++ ['\n']) ∧
      fileLines out = [accessKeyLine ++ credentials.AccessKeyId,
        secretKeyLine ++ credentials.SecretAccessKey,
        sessionTokenLine ++ credentials.SessionToken, regionLine ++ region, []] := by
  have h := modifyShellProfile_ok region io credentials file hok
  have he : file.getD [] = [] := by rcases hempty with rfl | rfl <;> rfl
  rw [he] at h
  have hout : (modifyShellProfile region io credentials file).2 =
      some (accessKeyLine ++ credentials.AccessKeyId ++ ['\n'] ++
        (secretKeyLine ++ credentials.SecretAccessKey ++ ['\n']) ++
        (sessionTokenLine ++ credentials.SessionToken ++ ['\n']) ++
        (regionLine ++ region ++ ['\n'])) := by
    simpa [found_nil, missingLines, candidate] using h
  refine ⟨_, hout, rfl, ?_⟩
  have h1 := newline_not_mem_candidate region credentials hnl Kind.accessKey
  have h2 := newline_not_mem_candidate region credentials hnl Kind.secretKey
  have h3 := newline_not_mem_candidate region credentials hnl Kind.sessionToken
  have h4 := newline_not_mem_candidate region credentials hnl Kind.region
  simp only [candidate] at h1 h2 h3 h4
  have e : accessKeyLine ++ credentials.AccessKeyId ++ ['\n'] ++
        (secretKeyLine ++ credentials.SecretAccessKey ++ ['\n']) ++
        (sessionTokenLine ++ credentials.SessionToken ++ ['\n']) ++
        (regionLine ++ region ++ ['\n']) =
      (accessKeyLine ++ credentials.AccessKeyId) ++ '\n' ::
        ((secretKeyLine ++ credentials.SecretAccessKey) ++ '\n' ::
          ((sessionTokenLine ++ credentials.SessionToken) ++ '\n' ::
            ((regionLine ++ region) ++ '\n' :: []))) := by
    simp
  rw [e]
  simp only [fileLines, strings.Split_append_sep, strings.Split_of_not_mem _ _ h1,
    strings.Split_of_not_mem _ _ h2, strings.Split_of_not_mem _ _ h3,
    strings.Split_of_not_mem _ _ h4]
  rfl

/-- C4 on a file that does not exist, with no failing file operation. -/
theorem modifyShellProfile_empty_witness :
    ∃ out : Str, (modifyShellProfile "eu-west-1".toList noFaults
        ⟨"AKIA1".toList, "s3cr3t".toList, "tok1".toList⟩ none).2 = some out ∧
      fileLines out = ["export AWS_ACCESS_KEY_ID=AKIA1".toList,
        "export AWS_SECRET_ACCESS_KEY=s3cr3t".toList, "export AWS_SESSION_TOKEN=tok1".toList,
        "export AWS_REGION=eu-west-1".toList, []] :=
  let ⟨out, h1, _, h3⟩ := modifyShellProfile_empty "eu-west-1".toList noFaults
    ⟨"AKIA1".toList, "s3cr3t".toList, "tok1".toList⟩ none (by decide) (Or.inl rfl) (by decide)
  ⟨out, h1, h3⟩

set_option maxRecDepth 100000 in
/-- C4 as stated fails for a value that holds a newline: with the region `eu` newline
`west` the file written on an empty file has five lines, and its fourth line is
`export AWS_REGION=eu`, which does not carry the supplied region. -/
theorem modifyShellProfile_empty_counterexample :
    modifyShellProfile "eu\nwest".toList noFaults
        ⟨"AKIA1".toList, "s3cr3t".toList, "tok1".toList⟩ none =
      (Result.ok, some ("export AWS_ACCESS_KEY_ID=AKIA1\nexport AWS_SECRET_ACCESS_KEY=s3cr3t\n" ++
        "export AWS_SESSION_TOKEN=tok1\nexport AWS_REGION=eu\nwest\n").toList) ∧
    fileLines ("export AWS_ACCESS_KEY_ID=AKIA1\nexport AWS_SECRET_ACCESS_KEY=s3cr3t\n" ++
        "export AWS_SESSION_TOKEN=tok1\nexport AWS_REGION=eu\nwest\n").toList =
      ["export AWS_ACCESS_KEY_ID=AKIA1".toList, "export AWS_SECRET_ACCESS_KEY=s3cr3t".toList,
        "export AWS_SESSION_TOKEN=tok1".toList, "export AWS_REGION=eu".toList, "west".toList, []] ∧
    "export AWS_REGION=eu".toList ≠ regionLine ++ "eu\nwest".toList := by
  decide

theorem lineKind_eq_none_iff (line : Str) :
    lineKind line = none ↔ ∀ k, strings.Contains line (marker k) = false := by
  constructor
  · intro h k
    unfold lineKind at h
    cases k <;> simp only [marker] <;> split_ifs at h <;> simp_all
  · intro h
    have h1 := h Kind.accessKey
    have h2 := h Kind.secretKey
    have h3 := h Kind.sessionToken
    have h4 := h Kind.region
    simp only [marker] at h1 h2 h3 h4
    simp [lineKind, h1, h2, h3, h4]

/-- C2, as the code has it: on the full-rewrite path (all four kinds found), when no
supplied value holds a newline, a successful call leaves a file with as many lines as
before, in which a line holding no marker stands unchanged at its index, a recognized
line is replaced at its index by the candidate line of its kind (the first kind, in the
order of the tests, whose marker it holds), and nothing is appended. -/
theorem modifyShellProfile_full_rewrite (region : Str) (io : Faults)
    (credentials : Credentials) (content : Str)
    (hnl : ∀ v ∈ [credentials.AccessKeyId, credentials.SecretAccessKey,
      credentials.SessionToken, region], '\n' ∉ v)
    (hok : (modifyShellProfile region io credentials (some content)).1 = Result.ok)
    (hall : found Kind.accessKey content = true ∧ found Kind.secretKey content = true ∧
      found Kind.sessionToken content = true ∧ found Kind.region content = true) :
    ∃ out : Str, (modifyShellProfile region io credentials (some content)).2 = some out ∧
      (fileLines out).length = (fileLines content).length ∧
      ∀ (i : Nat) (line : Str), (fileLines content)[i]? = some line →
        ((∀ k, strings.Contains line (marker k) = false) → (fileLines out)[i]? = some line) ∧
        (∀ k, lineKind line = some k →
          (fileLines out)[i]? = some (candidate region credentials k)) := by
  have h := modifyShellProfile_ok region io credentials (some content) hok
  simp only [Option.getD_some] at h
  rw [if_pos hall] at h
  refine ⟨_, h, ?_, ?_⟩
  · rw [fileLines_rewritten region credentials hnl content, List.length_map]
  · intro i line hline
    rw [fileLines_rewritten region credentials hnl content, List.getElem?_map, hline]
    constructor
    · intro hnone
      have := (lineKind_eq_none_iff line).mpr hnone
      simp [rewriteLine, this]
    · intro k hk
      simp [rewriteLine, hk]

/-- The full-rewrite path on a file of five lines: the unrelated line stays at index 2
and the four recognized lines take the new values. -/
theorem modifyShellProfile_full_rewrite_witness :
    ∃ out : Str, (modifyShellProfile "eu-west-1".toList noFaults
        ⟨"AKIA1".toList, "s3cr3t".toList, "tok1".toList⟩
        (some ("export AWS_ACCESS_KEY_ID=a\nexport AWS_SECRET_ACCESS_KEY=b\nexport FOO=1\n" ++
          "export AWS_SESSION_TOKEN=c\nexport AWS_REGION=d").toList)).2 = some out ∧
      (fileLines out).length =
        (fileLines ("export AWS_ACCESS_KEY_ID=a\nexport AWS_SECRET_ACCESS_KEY=b\nexport FOO=1\n" ++
          "export AWS_SESSION_TOKEN=c\nexport AWS_REGION=d").toList).length :=
  let ⟨out, h1, h2, _⟩ := modifyShellProfile_full_rewrite "eu-west-1".toList noFaults
    ⟨"AKIA1".toList, "s3cr3t".toList, "tok1".toList⟩
    ("export AWS_ACCESS_KEY_ID=a\nexport AWS_SECRET_ACCESS_KEY=b\nexport FOO=1\n" ++
      "export AWS_SESSION_TOKEN=c\nexport AWS_REGION=d").toList
    (by decide) (by decide) (by decide)
  ⟨out, h1, h2⟩

/-- C2 as stated fails: with a region that holds a newline, the full-rewrite path turns
a file of four lines into a file of five lines. -/
theorem modifyShellProfile_full_rewrite_counterexample :
    (found Kind.accessKey ("export AWS_ACCESS_KEY_ID=a\nexport AWS_SECRET_ACCESS_KEY=b\n" ++
        "export AWS_SESSION_TOKEN=c\nexport AWS_REGION=d").toList = true ∧
      found Kind.secretKey ("export AWS_ACCESS_KEY_ID=a\nexport AWS_SECRET_ACCESS_KEY=b\n" ++
        "export AWS_SESSION_TOKEN=c\nexport AWS_REGION=d").toList = true ∧
      found Kind.sessionToken ("export AWS_ACCESS_KEY_ID=a\nexport AWS_SECRET_ACCESS_KEY=b\n" ++
        "export AWS_SESSION_TOKEN=c\nexport AWS_REGION=d").toList = true ∧
      found Kind.region ("export AWS_ACCESS_KEY_ID=a\nexport AWS_SECRET_ACCESS_KEY=b\n" ++
        "export AWS_SESSION_TOKEN=c\nexport AWS_REGION=d").toList = true) ∧
    modifyShellProfile "eu\nwest".toList noFaults
        ⟨"AKIA1".toList, "s3cr3t".toList, "tok1".toList⟩
        (some ("export AWS_ACCESS_KEY_ID=a\nexport AWS_SECRET_ACCESS_KEY=b\n" ++
          "export AWS_SESSION_TOKEN=c\nexport AWS_REGION=d").toList) =
      (Result.ok, some ("export AWS_ACCESS_KEY_ID=AKIA1\nexport AWS_SECRET_ACCESS_KEY=s3cr3t\n" ++
        "export AWS_SESSION_TOKEN=tok1\nexport AWS_REGION=eu\nwest").toList) ∧
    (fileLines ("export AWS_ACCESS_KEY_ID=a\nexport AWS_SECRET_ACCESS_KEY=b\n" ++
      "export AWS_SESSION_TOKEN=c\nexport AWS_REGION=d").toList).length = 4 ∧
    (fileLines ("export AWS_ACCESS_KEY_ID=AKIA1\nexport AWS_SECRET_ACCESS_KEY=s3cr3t\n" ++
      "export AWS_SESSION_TOKEN=tok1\nexport AWS_REGION=eu\nwest").toList).length = 5 := by
  decide

theorem rewriteLine_candidate (region : Str) (credentials : Credentials)
    (hown : ∀ k, lineKind (candidate region credentials k) = some k) (k : Kind) :
    rewriteLine region credentials (candidate region credentials k) =
      candidate region credentials k := by
  simp [rewriteLine, hown k]

/-- C3, as the code has it: when no supplied value holds a newline and each candidate
line is recognized as a line of its own kind (no value holds the marker of a kind tested
earlier), a file made of exactly the four candidate lines, in any order, with or without
a final newline, is left byte-identical by a successful run with the same values. -/
theorem modifyShellProfile_idempotent (region : Str) (io : Faults)
    (credentials : Credentials)
    (hnl : ∀ v ∈ [credentials.AccessKeyId, credentials.SecretAccessKey,
      credentials.SessionToken, region], '\n' ∉ v)
    (hown : ∀ k, lineKind (candidate region credentials k) = some k)
    (lines : List Str)
    (hlines : lines.Perm [accessKeyLine ++ credentials.AccessKeyId,
      secretKeyLine ++ credentials.SecretAccessKey,
      sessionTokenLine ++ credentials.SessionToken, regionLine ++ region])
    (tail : Str) (htail : tail = [] ∨ tail = ['\n'])
    (hok : (modifyShellProfile region io credentials
      (some (strings.Join lines '\n' ++ tail))).1 = Result.ok) :
    (modifyShellProfile region io credentials (some (strings.Join lines '\n' ++ tail))).2 =
      some (strings.Join lines '\n' ++ tail) := by
  have h := modifyShellProfile_ok region io credentials _ hok
  simp only [Option.getD_some] at h
  have hmem : ∀ l, l ∈ lines ↔ ∃ k, l = candidate region credentials k := by
    intro l
    rw [hlines.mem_iff]
    constructor
    · intro hl
      simp only [List.mem_cons, List.mem_singleton, List.not_mem_nil, or_false] at hl
      rcases hl with rfl | rfl | rfl | rfl
      · exact ⟨Kind.accessKey, rfl⟩
      · exact ⟨Kind.secretKey, rfl⟩
      · exact ⟨Kind.sessionToken, rfl⟩
      · exact ⟨Kind.region, rfl⟩
    · rintro ⟨k, rfl⟩
      cases k <;> simp [candidate]
  have hne : lines ≠ [] := by
    intro h0
    rw [h0] at hlines
    simpa using hlines.length_eq
  have hnlines : ∀ l ∈ lines, '\n' ∉ l := by
    intro l hl
    obtain ⟨k, rfl⟩ := (hmem l).mp hl
    exact newline_not_mem_candidate region credentials hnl k
  have hsplit : fileLines (strings.Join lines '\n' ++ tail) = lines ∨
      fileLines (strings.Join lines '\n' ++ tail) = lines ++ [[]] := by
    rcases htail with rfl | rfl
    · left
      simpa [fileLines] using strings.Split_Join lines '\n' hne hnlines
    · right
      simp only [fileLines, strings.Split_append_sep, strings.Split_Join lines '\n' hne hnlines]
      rfl
  have hsub : ∀ l ∈ lines, l ∈ fileLines (strings.Join lines '\n' ++ tail) := by
    intro l hl
    rcases hsplit with e | e <;> rw [e] <;> simp [hl]
  have hfound : ∀ k, found k (strings.Join lines '\n' ++ tail) = true := by
    intro k
    simp only [found, List.any_eq_true]
    exact ⟨candidate region credentials k,
      hsub _ ((hmem _).mpr ⟨k, rfl⟩), by simp [hown k]⟩
  have hfix : ∀ l ∈ fileLines (strings.Join lines '\n' ++ tail),
      rewriteLine region credentials l = l := by
    intro l hl
    have hl2 : l ∈ lines ∨ l = [] := by
      rcases hsplit with e | e <;> rw [e] at hl
      · exact Or.inl hl
      · simpa using hl
    rcases hl2 with hl2 | rfl
    · obtain ⟨k, rfl⟩ := (hmem l).mp hl2
      exact rewriteLine_candidate region credentials hown k
    · have h0 : lineKind [] = none := by decide
      simp [rewriteLine, h0]
  have hmap : (fileLines (strings.Join lines '\n' ++ tail)).map (rewriteLine region credentials) =
      fileLines (strings.Join lines '\n' ++ tail) := by
    rw [List.map_congr_left hfix]
    simp
  rw [if_pos ⟨hfound _, hfound _, hfound _, hfound _⟩, hmap] at h
  rw [h]
  simp only [fileLines, strings.Join_Split]

/-- Idempotence on the file that the tool itself writes for the values
AKIA1 / s3cr3t / tok1 / eu-west-1. -/
theorem modifyShellProfile_idempotent_witness :
    (modifyShellProfile "eu-west-1".toList noFaults
        ⟨"AKIA1".toList, "s3cr3t".toList, "tok1".toList⟩
        (some (strings.Join [accessKeyLine ++ "AKIA1".toList, secretKeyLine ++ "s3cr3t".toList,
          sessionTokenLine ++ "tok1".toList, regionLine ++ "eu-west-1".toList] '\n' ++ ['\n']))).2 =
      some (strings.Join [accessKeyLine ++ "AKIA1".toList, secretKeyLine ++ "s3cr3t".toList,
          sessionTokenLine ++ "tok1".toList, regionLine ++ "eu-west-1".toList] '\n' ++ ['\n']) :=
  modifyShellProfile_idempotent "eu-west-1".toList noFaults
    ⟨"AKIA1".toList, "s3cr3t".toList, "tok1".toList⟩ (by decide)
    (fun k => by cases k <;> decide)
    [accessKeyLine ++ "AKIA1".toList, secretKeyLine ++ "s3cr3t".toList,
      sessionTokenLine ++ "tok1".toList, regionLine ++ "eu-west-1".toList]
    (List.Perm.refl _) ['\n'] (Or.inr rfl) (by decide)

set_option maxRecDepth 100000 in
/-- C3 as stated fails for some values.  With a region that holds a newline, and with a
secret access key that holds the marker of the access key, the file made of the four
candidate lines (each followed by a newline) is changed by a second run. -/
theorem modifyShellProfile_idempotent_counterexample :
    (modifyShellProfile "eu\nwest".toList noFaults
        ⟨"AKIA1".toList, "s3cr3t".toList, "tok1".toList⟩
        (some (accessKeyLine ++ "AKIA1".toList ++ ['\n'] ++ (secretKeyLine ++ "s3cr3t".toList ++ ['\n']) ++
          (sessionTokenLine ++ "tok1".toList ++ ['\n']) ++ (regionLine ++ "eu\nwest".toList ++ ['\n']))) =
      (Result.ok,
        some (accessKeyLine ++ "AKIA1".toList ++ ['\n'] ++ (secretKeyLine ++ "s3cr3t".toList ++ ['\n']) ++
          (sessionTokenLine ++ "tok1".toList ++ ['\n']) ++ (regionLine ++ "eu\nwest".toList ++ ['\n']) ++
          "west\n".toList)) ∧
      (accessKeyLine ++ "AKIA1".toList ++ ['\n'] ++ (secretKeyLine ++ "s3cr3t".toList ++ ['\n']) ++
          (sessionTokenLine ++ "tok1".toList ++ ['\n']) ++ (regionLine ++ "eu\nwest".toList ++ ['\n']) ++
          "west\n".toList) ≠
        accessKeyLine ++ "AKIA1".toList ++ ['\n'] ++ (secretKeyLine ++ "s3cr3t".toList ++ ['\n']) ++
          (sessionTokenLine ++ "tok1".toList ++ ['\n']) ++ (regionLine ++ "eu\nwest".toList ++ ['\n'])) ∧
    (modifyShellProfile "eu-west-1".toList noFaults
        ⟨"AKIA1".toList, "export AWS_ACCESS_KEY_ID=x".toList, "tok1".toList⟩
        (some (accessKeyLine ++ "AKIA1".toList ++ ['\n'] ++
          (secretKeyLine ++ "export AWS_ACCESS_KEY_ID=x".toList ++ ['\n']) ++
          (sessionTokenLine ++ "tok1".toList ++ ['\n']) ++ (regionLine ++ "eu-west-1".toList ++ ['\n']))) =
      (Result.ok,
        some (accessKeyLine ++ "AKIA1".toList ++ ['\n'] ++
          (secretKeyLine ++ "export AWS_ACCESS_KEY_ID=x".toList ++ ['\n']) ++
          (sessionTokenLine ++ "tok1".toList ++ ['\n']) ++ (regionLine ++ "eu-west-1".toList ++ ['\n']) ++
          (secretKeyLine ++ "export AWS_ACCESS_KEY_ID=x".toList ++ ['\n']))) ∧
      (accessKeyLine ++ "AKIA1".toList ++ ['\n'] ++
          (secretKeyLine ++ "export AWS_ACCESS_KEY_ID=x".toList ++ ['\n']) ++
          (sessionTokenLine ++ "tok1".toList ++ ['\n']) ++ (regionLine ++ "eu-west-1".toList ++ ['\n']) ++
          (secretKeyLine ++ "export AWS_ACCESS_KEY_ID=x".toList ++ ['\n'])) ≠
        accessKeyLine ++ "AKIA1".toList ++ ['\n'] ++
          (secretKeyLine ++ "export AWS_ACCESS_KEY_ID=x".toList ++ ['\n']) ++
          (sessionTokenLine ++ "tok1".toList ++ ['\n']) ++ (regionLine ++ "eu-west-1".toList ++ ['\n'])) := by
  decide

namespace strings

theorem matchAt_append_of_not_mem (c : Char) (b : Str) :
    ∀ (a t : Str), c ∉ t → matchAt (a ++ c :: b) t = matchAt a t := by
  intro a
  induction a with
  | nil =>
    intro t ht
    cases t with
    | nil => simp [matchAt]
    | cons d t =>
      simp only [List.mem_cons, not_or] at ht
      simp [matchAt, ht.1]
  | cons x a ih =>
    intro t ht
    cases t with
    | nil => simp [matchAt]
    | cons d t =>
      simp only [List.mem_cons, not_or] at ht
      simp [matchAt, ih t ht.2]

theorem Contains_append_cons (c : Char) (t b : Str) (hc : c ∉ t) (a : Str) :
    Contains (a ++ c :: b) (c :: t) = (Contains a (c :: t) || Contains (c :: b) (c :: t)) := by
  induction a with
  | nil => simp [Contains, matchAt]
  | cons x a ih =>
    have h := matchAt_append_of_not_mem c b a t hc
    have e1 : Contains (x :: (a ++ c :: b)) (c :: t) =
        (matchAt (x :: (a ++ c :: b)) (c :: t) || Contains (a ++ c :: b) (c :: t)) := rfl
    have e2 : Contains (x :: a) (c :: t) = (matchAt (x :: a) (c :: t) || Contains a (c :: t)) := rfl
    have e3 : matchAt (x :: (a ++ c :: b)) (c :: t) = (x == c && matchAt (a ++ c :: b) t) := rfl
    have e4 : matchAt (x :: a) (c :: t) = (x == c && matchAt a t) := rfl
    rw [List.cons_append, e1, e2, e3, e4, ih, h, Bool.or_assoc]

end strings

theorem marker_shape (k : Kind) : ∃ t, marker k = 'e' :: t ∧ 'e' ∉ t := by
  cases k
  · exact ⟨accessKeyLine.tail, by decide, by decide⟩
  · exact ⟨secretKeyLine.tail, by decide, by decide⟩
  · exact ⟨sessionTokenLine.tail, by decide, by decide⟩
  · exact ⟨regionLine.tail, by decide, by decide⟩

theorem candidate_shape (region : Str) (credentials : Credentials) (k : Kind) :
    ∃ b, candidate region credentials k = 'e' :: b := by
  cases k
  · exact ⟨accessKeyLine.tail ++ credentials.AccessKeyId, rfl⟩
  · exact ⟨secretKeyLine.tail ++ credentials.SecretAccessKey, rfl⟩
  · exact ⟨sessionTokenLine.tail ++ credentials.SessionToken, rfl⟩
  · exact ⟨regionLine.tail ++ region, rfl⟩

theorem missingLines_eq (region : Str) (credentials : Credentials) (content : Str) :
    missingLines region credentials content =
      ([Kind.accessKey, Kind.secretKey, Kind.sessionToken, Kind.region].filter
        (fun k => !found k content)).flatMap
        (fun k => candidate region credentials k ++ ['\n']) := by
  unfold missingLines
  cases h1 : found Kind.accessKey content <;> cases h2 : found Kind.secretKey content <;>
    cases h3 : found Kind.sessionToken content <;> cases h4 : found Kind.region content <;>
    simp [List.filter, List.flatMap, h1, h2, h3, h4]

theorem Split_candidates (region : Str) (credentials : Credentials)
    (hnl : ∀ k, '\n' ∉ candidate region credentials k) (ks : List Kind) :
    strings.Split (ks.flatMap (fun k => candidate region credentials k ++ ['\n'])) '\n' =
      ks.map (candidate region credentials) ++ [[]] := by
  induction ks with
  | nil => rfl
  | cons k ks ih =>
    have e : (k :: ks).flatMap (fun k => candidate region credentials k ++ ['\n']) =
        candidate region credentials k ++
          '\n' :: ks.flatMap (fun k => candidate region credentials k ++ ['\n']) := by
      simp [List.flatMap]
    rw [e, strings.Split_append_sep, ih, strings.Split_of_not_mem _ _ (hnl k)]
    rfl

theorem lineKind_nil : lineKind [] = none := by decide

theorem strings.Split_append_of_not_mem (a c : Str) (sep : Char) (ha : sep ∉ a)
    (h : Str) (t : List Str) (hc : strings.Split c sep = h :: t) :
    strings.Split (a ++ c) sep = (a ++ h) :: t := by
  induction a with
  | nil => simpa using hc
  | cons x a ih =>
    simp only [List.mem_cons, not_or] at ha
    have hx : x ≠ sep := fun e => ha.1 e.symm
    simp [strings.Split, hx, ih ha.2]

theorem markerCount_nil (j : Kind) : markerCount j [] = 0 := by
  cases j <;> decide

theorem markerCount_append_sep (j : Kind) (a b : Str) :
    markerCount j (a ++ '\n' :: b) = markerCount j a + markerCount j b := by
  simp [markerCount, fileLines, strings.Split_append_sep, List.countP_append]

theorem markerCount_of_not_mem (j : Kind) (l : Str) (h : '\n' ∉ l) :
    markerCount j l = if strings.Contains l (marker j) = true then 1 else 0 := by
  simp [markerCount, fileLines, strings.Split_of_not_mem l '\n' h, List.countP_cons]

theorem markerCount_Join (j : Kind) (ls : List Str) (hne : ls ≠ []) :
    markerCount j (strings.Join ls '\n') = (ls.map (markerCount j)).sum := by
  induction ls with
  | nil => exact absurd rfl hne
  | cons e rest ih =>
    cases rest with
    | nil => simp [strings.Join]
    | cons f rest =>
      simp only [strings.Join, markerCount_append_sep, ih (by simp), List.map_cons, List.sum_cons]

theorem markerCount_candidates (region : Str) (credentials : Credentials) (j : Kind)
    (ks : List Kind) :
    markerCount j (ks.flatMap (fun k => candidate region credentials k ++ ['\n'])) =
      (ks.map (fun k => markerCount j (candidate region credentials k))).sum := by
  induction ks with
  | nil => simpa using markerCount_nil j
  | cons k ks ih =>
    have e : (k :: ks).flatMap (fun k => candidate region credentials k ++ ['\n']) =
        candidate region credentials k ++
          '\n' :: ks.flatMap (fun k => candidate region credentials k ++ ['\n']) := by
      simp [List.flatMap]
    rw [e, markerCount_append_sep, ih]
    simp

/-- Continuing an unterminated last line by a candidate line adds no marker beyond
those of the two texts: no marker starts in one and ends in the other. -/
theorem markerCount_glue (region : Str) (credentials : Credentials) (j k : Kind)
    (last : Str) (hlast : '\n' ∉ last) :
    markerCount j (last ++ candidate region credentials k) ≤
      (if strings.Contains last (marker j) = true then 1 else 0) +
        markerCount j (candidate region credentials k) := by
  obtain ⟨b, hb⟩ := candidate_shape region credentials k
  obtain ⟨t, ht, hnot⟩ := marker_shape j
  obtain ⟨h, rest, hsplit⟩ := strings.Split_cons_shape b '\n'
  have hc : strings.Split (candidate region credentials k) '\n' = ('e' :: h) :: rest := by
    rw [hb]
    simp [strings.Split, hsplit]
  have hglue := strings.Split_append_of_not_mem last (candidate region credentials k) '\n'
    hlast _ _ hc
  have hcont := strings.Contains_append_cons 'e' t h hnot last
  simp only [markerCount, fileLines, hglue, hc, List.countP_cons, ht, hcont]
  cases strings.Contains last ('e' :: t) <;> cases strings.Contains ('e' :: h) ('e' :: t) <;>
    simp +arith

theorem markerCount_append_missing (region : Str) (credentials : Credentials)
    (content : Str) (ks : List Kind) (j : Kind) :
    markerCount j (content ++ ks.flatMap (fun k => candidate region credentials k ++ ['\n'])) ≤
      markerCount j content +
        (ks.map (fun k => markerCount j (candidate region credentials k))).sum := by
  cases ks with
  | nil => simp [List.flatMap]
  | cons k1 rest =>
    obtain ⟨init, last, h1, h2, h3⟩ := strings.Split_append content '\n'
    have e : content ++ (k1 :: rest).flatMap (fun k => candidate region credentials k ++ ['\n']) =
        (content ++ candidate region credentials k1) ++
          '\n' :: rest.flatMap (fun k => candidate region credentials k ++ ['\n']) := by
      simp [List.flatMap]
    have hg := markerCount_glue region credentials j k1 last h2
    have hcontent : markerCount j content =
        init.countP (fun line => strings.Contains line (marker j)) +
          (if strings.Contains last (marker j) = true then 1 else 0) := by
      simp [markerCount, fileLines, h1, List.countP_append, List.countP_cons]
    have hfirst : markerCount j (content ++ candidate region credentials k1) =
        init.countP (fun line => strings.Contains line (marker j)) +
          markerCount j (last ++ candidate region credentials k1) := by
      simp [markerCount, fileLines, h3, List.countP_append]
    rw [e, markerCount_append_sep, markerCount_candidates, hfirst, hcontent]
    simp only [List.map_cons, List.sum_cons]
    omega

theorem Contains_of_lineKind (line : Str) (k : Kind) (h : lineKind line = some k) :
    strings.Contains line (marker k) = true := by
  unfold lineKind at h
  split_ifs at h with h1 h2 h3 h4 <;> cases h
  · exact h1
  · exact h2
  · exact h3
  · exact h4

theorem markerCount_eq_zero_of_not_found (j : Kind) (content : Str)
    (htwo : ∀ line ∈ fileLines content, ∀ k j, strings.Contains line (marker k) = true →
      strings.Contains line (marker j) = true → k = j)
    (h : found j content = false) : markerCount j content = 0 := by
  unfold markerCount
  rw [List.countP_eq_zero]
  intro line hline hc
  have hnone : lineKind line ≠ none := by
    intro hn
    have := (lineKind_eq_none_iff line).mp hn j
    rw [hc] at this
    cases this
  obtain ⟨k, hk⟩ := Option.ne_none_iff_exists'.mp hnone
  have hkj : k = j := htwo line hline k j (Contains_of_lineKind line k hk) hc
  subst hkj
  have hf := List.any_eq_false.mp h line hline
  simp [hk] at hf

theorem markerCount_rewritten (region : Str) (credentials : Credentials)
    (hcand : ∀ k j, markerCount j (candidate region credentials k) = if j = k then 1 else 0)
    (content : Str) (j : Kind) :
    markerCount j (strings.Join ((fileLines content).map (rewriteLine region credentials)) '\n') ≤
      markerCount j content := by
  have hne : (fileLines content).map (rewriteLine region credentials) ≠ [] := by
    simpa [fileLines] using strings.Split_ne_nil content '\n'
  have hne2 : fileLines content ≠ [] := strings.Split_ne_nil content '\n'
  have hold : markerCount j content = ((fileLines content).map (markerCount j)).sum := by
    conv_lhs => rw [← strings.Join_Split content '\n']
    exact markerCount_Join j _ hne2
  rw [markerCount_Join j _ hne, hold, List.map_map]
  apply List.sum_le_sum
  intro line hline
  have hnl : '\n' ∉ line := strings.not_mem_of_mem_Split content '\n' line hline
  simp only [Function.comp]
  cases hk : lineKind line with
  | none => simp [rewriteLine, hk]
  | some k =>
    have hc := Contains_of_lineKind line k hk
    simp only [rewriteLine, hk, hcand k j]
    by_cases hjk : j = k
    · subst hjk
      simp [markerCount_of_not_mem j line hnl, hc]
    · simp [hjk]

/-- C5, as the code has it: when, in the file before the run, each marker is on at most
one line and no line holds the markers of two kinds, and each candidate line, read as
lines, holds the marker of its own kind on exactly one line and the marker of no other
kind, then after a successful call each marker is on at most one line of the file. -/
theorem modifyShellProfile_at_most_once (region : Str) (io : Faults)
    (credentials : Credentials) (file : Option Str)
    (hone : ∀ k, markerCount k (file.getD []) ≤ 1)
    (htwo : ∀ line ∈ fileLines (file.getD []), ∀ k j,
      strings.Contains line (marker k) = true → strings.Contains line (marker j) = true → k = j)
    (hcand : ∀ k j, markerCount j (candidate region credentials k) = if j = k then 1 else 0)
    (hok : (modifyShellProfile region io credentials file).1 = Result.ok) :
    ∃ out : Str, (modifyShellProfile region io credentials file).2 = some out ∧
      ∀ k, markerCount k out ≤ 1 := by
  have h := modifyShellProfile_ok region io credentials file hok
  refine ⟨_, h, ?_⟩
  intro j
  split_ifs with hall
  · exact le_trans (markerCount_rewritten region credentials hcand (file.getD []) j) (hone j)
  · rw [missingLines_eq]
    have hle := markerCount_append_missing region credentials (file.getD [])
      ([Kind.accessKey, Kind.secretKey, Kind.sessionToken, Kind.region].filter
        (fun k => !found k (file.getD []))) j
    have hsum : (([Kind.accessKey, Kind.secretKey, Kind.sessionToken, Kind.region].filter
        (fun k => !found k (file.getD []))).map
          (fun k => markerCount j (candidate region credentials k))).sum =
        ([Kind.accessKey, Kind.secretKey, Kind.sessionToken, Kind.region].filter
          (fun k => !found k (file.getD []))).count j := by
      generalize ([Kind.accessKey, Kind.secretKey, Kind.sessionToken, Kind.region].filter
        (fun k => !found k (file.getD []))) = ks
      induction ks with
      | nil => simp
      | cons k ks ih =>
        simp only [List.map_cons, List.sum_cons, ih, hcand k j, List.count_cons]
        by_cases hjk : j = k
        · subst hjk
          simp
          omega
        · have : ¬ ((k == j) = true) := by simpa using fun e => hjk e.symm
          simp [hjk, this]
    rw [hsum] at hle
    have hnodup : ([Kind.accessKey, Kind.secretKey, Kind.sessionToken, Kind.region].filter
        (fun k => !found k (file.getD []))).Nodup :=
      List.Nodup.sublist (List.filter_sublist _) (by decide)
    have hc := List.nodup_iff_count_le_one.mp hnodup j
    cases hf : found j (file.getD []) with
    | true =>
      have hz : ([Kind.accessKey, Kind.secretKey, Kind.sessionToken, Kind.region].filter
          (fun k => !found k (file.getD []))).count j = 0 := by
        rw [List.count_eq_zero]
        intro hmem
        have := (List.mem_filter.mp hmem).2
        simp [hf] at this
      have := hone j
      omega
    | false =>
      have := markerCount_eq_zero_of_not_found j (file.getD []) htwo hf
      omega

theorem Contains_candidate (region : Str) (credentials : Credentials) (k j : Kind) :
    strings.Contains (candidate region credentials k) (marker j) =
      (decide (j = k) ||
        strings.Contains ([credentials.AccessKeyId, credentials.SecretAccessKey,
          credentials.SessionToken, region].getD
            (match k with
              | Kind.accessKey => 0
              | Kind.secretKey => 1
              | Kind.sessionToken => 2
              | Kind.region => 3) []) (marker j)) := by
  have hA : accessKeyLine = ['e', 'x', 'p', 'o', 'r', 't', ' ', 'A', 'W', 'S', '_', 'A', 'C',
      'C', 'E', 'S', 'S', '_', 'K', 'E', 'Y', '_', 'I', 'D', '='] := by decide
  have hS : secretKeyLine = ['e', 'x', 'p', 'o', 'r', 't', ' ', 'A', 'W', 'S', '_', 'S', 'E',
      'C', 'R', 'E', 'T', '_', 'A', 'C', 'C', 'E', 'S', 'S', '_', 'K', 'E', 'Y', '='] := by decide
  have hT : sessionTokenLine = ['e', 'x', 'p', 'o', 'r', 't', ' ', 'A', 'W', 'S', '_', 'S', 'E',
      'S', 'S', 'I', 'O', 'N', '_', 'T', 'O', 'K', 'E', 'N', '='] := by decide
  have hR : regionLine = ['e', 'x', 'p', 'o', 'r', 't', ' ', 'A', 'W', 'S', '_', 'R', 'E', 'G',
      'I', 'O', 'N', '='] := by decide
  have hc : ∀ (c : Char) (s sub : Str), strings.Contains (c :: s) sub =
      (strings.matchAt (c :: s) sub || strings.Contains s sub) := fun _ _ _ => rfl
  have hm : ∀ (c d : Char) (s sub : Str), strings.matchAt (c :: s) (d :: sub) =
      (c == d && strings.matchAt s sub) := fun _ _ _ _ => rfl
  have hm0 : ∀ s : Str, strings.matchAt s [] = true := fun s => by cases s <;> rfl
  cases k <;> cases j <;> simp [candidate, marker, hA, hS, hT, hR, hc, hm, hm0]

/-- The condition of C5 on the values holds when no value holds a newline or a
marker. -/
theorem markerCount_candidate_of_plain (region : Str) (credentials : Credentials)
    (hnl : ∀ v ∈ [credentials.AccessKeyId, credentials.SecretAccessKey,
      credentials.SessionToken, region], '\n' ∉ v)
    (hplain : ∀ v ∈ [credentials.AccessKeyId, credentials.SecretAccessKey,
      credentials.SessionToken, region], ∀ j, strings.Contains v (marker j) = false)
    (k j : Kind) :
    markerCount j (candidate region credentials k) = if j = k then 1 else 0 := by
  rw [markerCount_of_not_mem j _ (newline_not_mem_candidate region credentials hnl k),
    Contains_candidate]
  have hv : strings.Contains ([credentials.AccessKeyId, credentials.SecretAccessKey,
      credentials.SessionToken, region].getD
        (match k with
          | Kind.accessKey => 0
          | Kind.secretKey => 1
          | Kind.sessionToken => 2
          | Kind.region => 3) []) (marker j) = false := by
    cases k
    · exact hplain _ (by simp) j
    · exact hplain _ (by simp) j
    · exact hplain _ (by simp) j
    · exact hplain _ (by simp) j
  rw [hv]
  by_cases hjk : j = k <;> simp [hjk]

set_option maxRecDepth 100000 in
/-- C5 on a file that holds an unrelated line and the region line: after the run the
region marker is still on one line and each missing marker is on one appended line. -/
theorem modifyShellProfile_at_most_once_witness :
    ∃ out : Str, (modifyShellProfile "eu-west-1".toList noFaults
        ⟨"AKIA1".toList, "s3cr3t".toList, "tok1".toList⟩
        (some "export FOO=1\nexport AWS_REGION=us-east-1\n".toList)).2 = some out ∧
      ∀ k, markerCount k out ≤ 1 :=
  modifyShellProfile_at_most_once "eu-west-1".toList noFaults
    ⟨"AKIA1".toList, "s3cr3t".toList, "tok1".toList⟩
    (some "export FOO=1\nexport AWS_REGION=us-east-1\n".toList)
    (fun k => by cases k <;> decide)
    (fun line hline k j => by
      have e : fileLines ((some "export FOO=1\nexport AWS_REGION=us-east-1\n".toList).getD []) =
          ["export FOO=1".toList, "export AWS_REGION=us-east-1".toList, []] := by decide
      rw [e] at hline
      simp only [List.mem_cons, List.mem_singleton, List.not_mem_nil, or_false] at hline
      rcases hline with rfl | rfl | rfl <;> cases k <;> cases j <;> decide)
    (fun k j => by cases k <;> cases j <;> decide)
    (by decide)

set_option maxRecDepth 100000 in
/-- C5 as stated fails in four ways, each with the other conditions in place.  A file
with two access key lines keeps two (full-rewrite path).  A file whose one line holds
the access key and the region marker gets a second region line, the line being
recognized as an access key line only.  On an empty file, a region value that holds the
access key marker puts that marker on two lines, and a region value that holds a newline
followed by a region line puts the region marker on two lines. -/
theorem modifyShellProfile_at_most_once_counterexample :
    (modifyShellProfile "eu-west-1".toList noFaults
        ⟨"AKIA1".toList, "s3cr3t".toList, "tok1".toList⟩
        (some ("export AWS_ACCESS_KEY_ID=a\nexport AWS_ACCESS_KEY_ID=b\n" ++
          "export AWS_SECRET_ACCESS_KEY=c\nexport AWS_SESSION_TOKEN=d\nexport AWS_REGION=e\n").toList) =
      (Result.ok, some ("export AWS_ACCESS_KEY_ID=AKIA1\nexport AWS_ACCESS_KEY_ID=AKIA1\n" ++
          "export AWS_SECRET_ACCESS_KEY=s3cr3t\nexport AWS_SESSION_TOKEN=tok1\n" ++
          "export AWS_REGION=eu-west-1\n").toList) ∧
      markerCount Kind.accessKey ("export AWS_ACCESS_KEY_ID=AKIA1\nexport AWS_ACCESS_KEY_ID=AKIA1\n" ++
          "export AWS_SECRET_ACCESS_KEY=s3cr3t\nexport AWS_SESSION_TOKEN=tok1\n" ++
          "export AWS_REGION=eu-west-1\n").toList = 2) ∧
    (markerCount Kind.accessKey "export AWS_ACCESS_KEY_ID=a export AWS_REGION=b\n".toList = 1 ∧
      markerCount Kind.secretKey "export AWS_ACCESS_KEY_ID=a export AWS_REGION=b\n".toList = 0 ∧
      markerCount Kind.sessionToken "export AWS_ACCESS_KEY_ID=a export AWS_REGION=b\n".toList = 0 ∧
      markerCount Kind.region "export AWS_ACCESS_KEY_ID=a export AWS_REGION=b\n".toList = 1 ∧
      modifyShellProfile "eu-west-1".toList noFaults
          ⟨"AKIA1".toList, "s3cr3t".toList, "tok1".toList⟩
          (some "export AWS_ACCESS_KEY_ID=a export AWS_REGION=b\n".toList) =
        (Result.ok, some ("export AWS_ACCESS_KEY_ID=a export AWS_REGION=b\n" ++
          "export AWS_SECRET_ACCESS_KEY=s3cr3t\nexport AWS_SESSION_TOKEN=tok1\n" ++
          "export AWS_REGION=eu-west-1\n").toList) ∧
      markerCount Kind.region ("export AWS_ACCESS_KEY_ID=a export AWS_REGION=b\n" ++
          "export AWS_SECRET_ACCESS_KEY=s3cr3t\nexport AWS_SESSION_TOKEN=tok1\n" ++
          "export AWS_REGION=eu-west-1\n").toList = 2) ∧
    (modifyShellProfile "export AWS_ACCESS_KEY_ID=x".toList noFaults
        ⟨"AKIA1".toList, "s3cr3t".toList, "tok1".toList⟩ (some []) =
      (Result.ok, some ("export AWS_ACCESS_KEY_ID=AKIA1\nexport AWS_SECRET_ACCESS_KEY=s3cr3t\n" ++
          "export AWS_SESSION_TOKEN=tok1\nexport AWS_REGION=export AWS_ACCESS_KEY_ID=x\n").toList) ∧
      markerCount Kind.accessKey ("export AWS_ACCESS_KEY_ID=AKIA1\nexport AWS_SECRET_ACCESS_KEY=s3cr3t\n" ++
          "export AWS_SESSION_TOKEN=tok1\nexport AWS_REGION=export AWS_ACCESS_KEY_ID=x\n").toList = 2) ∧
    (modifyShellProfile "eu\nexport AWS_REGION=west".toList noFaults
        ⟨"AKIA1".toList, "s3cr3t".toList, "tok1".toList⟩ (some []) =
      (Result.ok, some ("export AWS_ACCESS_KEY_ID=AKIA1\nexport AWS_SECRET_ACCESS_KEY=s3cr3t\n" ++
          "export AWS_SESSION_TOKEN=tok1\nexport AWS_REGION=eu\nexport AWS_REGION=west\n").toList) ∧
      markerCount Kind.region ("export AWS_ACCESS_KEY_ID=AKIA1\nexport AWS_SECRET_ACCESS_KEY=s3cr3t\n" ++
          "export AWS_SESSION_TOKEN=tok1\nexport AWS_REGION=eu\nexport AWS_REGION=west\n").toList = 2) := by
  decide

theorem filter_sublist_map {α : Type} (p : α → Bool) (f : α → α)
    (h : ∀ a, p a = true → f a = a) (ls : List α) :
    (ls.filter p).Sublist (ls.map f) := by
  induction ls with
  | nil => simp
  | cons a ls ih =>
    by_cases hp : p a = true
    · simp only [List.filter_cons, hp, if_true, List.map_cons, h a hp]
      exact ih.cons₂ a
    · simp only [List.filter_cons, hp, List.map_cons]
      exact ih.cons (f a)

/-- Where the lines that hold no marker are kept: on the full-rewrite path, and on the
append-only path when the file is empty or ends with a newline, the lines of the old
file that hold no marker are lines of the new file, in the same order (when no value
holds a newline). -/
theorem modifyShellProfile_keeps_other_lines (region : Str) (io : Faults)
    (credentials : Credentials) (content : Str)
    (hnl : ∀ v ∈ [credentials.AccessKeyId, credentials.SecretAccessKey,
      credentials.SessionToken, region], '\n' ∉ v)
    (hok : (modifyShellProfile region io credentials (some content)).1 = Result.ok)
    (hcase : (found Kind.accessKey content = true ∧ found Kind.secretKey content = true ∧
        found Kind.sessionToken content = true ∧ found Kind.region content = true) ∨
      content = [] ∨ ∃ c, content = c ++ ['\n']) :
    ∃ out : Str, (modifyShellProfile region io credentials (some content)).2 = some out ∧
      ((fileLines content).filter (fun line => lineKind line == none)).Sublist
        (fileLines out) := by
  have h := modifyShellProfile_ok region io credentials (some content) hok
  simp only [Option.getD_some] at h
  refine ⟨_, h, ?_⟩
  split_ifs with hall
  · rw [fileLines_rewritten region credentials hnl]
    apply filter_sublist_map
    intro line hline
    have : lineKind line = none := by simpa using hline
    simp [rewriteLine, this]
  · have hlast : ∃ init, fileLines content = init ++ [[]] := by
      rcases hcase with hall2 | rfl | ⟨c, rfl⟩
      · exact absurd hall2 hall
      · exact ⟨[], rfl⟩
      · exact ⟨fileLines c, by simp [fileLines, strings.Split_append_sep, strings.Split]⟩
    obtain ⟨init, hinit⟩ := hlast
    obtain ⟨init2, last, h1, -, h3⟩ := strings.Split_append content '\n'
    have heq : init2 = init ∧ last = [] := by
      have : init2 ++ [last] = init ++ [[]] := by rw [← h1]; exact hinit
      have := List.append_inj' this rfl
      exact ⟨this.1, by simpa using this.2⟩
    obtain ⟨rfl, rfl⟩ := heq
    have hout : fileLines (content ++ missingLines region credentials content) =
        init2 ++ (([Kind.accessKey, Kind.secretKey, Kind.sessionToken, Kind.region].filter
          (fun k => !found k content)).map (candidate region credentials) ++ [[]]) := by
      unfold fileLines
      rw [h3, List.nil_append, missingLines_eq,
        Split_candidates region credentials (newline_not_mem_candidate region credentials hnl)]
    rw [hout, hinit, List.filter_append]
    apply List.Sublist.append (List.filter_sublist _)
    have : List.filter (fun line => lineKind line == none) [([] : Str)] = [[]] := by
      simp [List.filter, lineKind_nil]
    rw [this]
    exact List.sublist_append_right _ _

set_option maxRecDepth 100000 in
/-- C6 fails on the append-only path for a file whose last line has no newline: the
first appended line is glued to it.  The file `export FOO=1` becomes a file whose first
line is `export FOO=1export AWS_ACCESS_KEY_ID=AKIA1`; the line `export FOO=1`, which
holds no marker, is no line of the new file. -/
theorem modifyShellProfile_glues_last_line :
    modifyShellProfile "eu-west-1".toList noFaults
        ⟨"AKIA1".toList, "s3cr3t".toList, "tok1".toList⟩ (some "export FOO=1".toList) =
      (Result.ok, some ("export FOO=1export AWS_ACCESS_KEY_ID=AKIA1\n" ++
        "export AWS_SECRET_ACCESS_KEY=s3cr3t\nexport AWS_SESSION_TOKEN=tok1\n" ++
        "export AWS_REGION=eu-west-1\n").toList) ∧
    fileLines "export FOO=1".toList = ["export FOO=1".toList] ∧
    lineKind "export FOO=1".toList = none ∧
    "export FOO=1".toList ∉ fileLines ("export FOO=1export AWS_ACCESS_KEY_ID=AKIA1\n" ++
        "export AWS_SECRET_ACCESS_KEY=s3cr3t\nexport AWS_SESSION_TOKEN=tok1\n" ++
        "export AWS_REGION=eu-west-1\n").toList := by
  decide

/-- C7, as the code has it: the strategy of `loadAwsConfig` is chosen on the values
with their white space trimmed.  Assume-with-MFA (role ARN, serial, token from standard
input) is chosen exactly when both `RoleARN` and `MFASerial` are non-blank,
assume-without-MFA exactly when `RoleARN` is non-blank and `MFASerial` is blank, the
direct credentials exactly when `RoleARN` is blank; so the pairs of the spec give direct,
assume-without-MFA and assume-with-MFA. -/
theorem loadAwsConfigOptions_strategy (profile : Str) (conf : SharedConfig) :
    (loadAwsConfigOptions profile conf =
        ⟨profile, some ⟨conf.RoleARN, some conf.MFASerial, some TokenProvider.StdinTokenProvider⟩⟩ ↔
      strings.TrimSpace conf.RoleARN ≠ [] ∧ strings.TrimSpace conf.MFASerial ≠ []) ∧
    (loadAwsConfigOptions profile conf = ⟨profile, some ⟨conf.RoleARN, none, none⟩⟩ ↔
      strings.TrimSpace conf.RoleARN ≠ [] ∧ strings.TrimSpace conf.MFASerial = []) ∧
    (loadAwsConfigOptions profile conf = ⟨profile, none⟩ ↔ strings.TrimSpace conf.RoleARN = []) ∧
    loadAwsConfigOptions profile ⟨[], []⟩ = ⟨profile, none⟩ ∧
    loadAwsConfigOptions profile ⟨"X".toList, []⟩ = ⟨profile, some ⟨"X".toList, none, none⟩⟩ ∧
    loadAwsConfigOptions profile ⟨"X".toList, "Y".toList⟩ =
      ⟨profile, some ⟨"X".toList, some "Y".toList, some TokenProvider.StdinTokenProvider⟩⟩ := by
  refine ⟨?_, ?_, ?_, ?_, ?_, ?_⟩
  · unfold loadAwsConfigOptions
    by_cases h1 : strings.TrimSpace conf.RoleARN = [] <;>
      by_cases h2 : strings.TrimSpace conf.MFASerial = [] <;> simp [h1, h2]
  · unfold loadAwsConfigOptions
    by_cases h1 : strings.TrimSpace conf.RoleARN = [] <;>
      by_cases h2 : strings.TrimSpace conf.MFASerial = [] <;> simp [h1, h2]
  · unfold loadAwsConfigOptions
    by_cases h1 : strings.TrimSpace conf.RoleARN = [] <;>
      by_cases h2 : strings.TrimSpace conf.MFASerial = [] <;> simp [h1, h2]
  · have h : strings.TrimSpace [] = [] := by decide
    simp [loadAwsConfigOptions, h]
  · have h : strings.TrimSpace [] = [] := by decide
    have hx : strings.TrimSpace ['X'] ≠ [] := by decide
    simp [loadAwsConfigOptions, h, hx]
  · have hx : strings.TrimSpace ['X'] ≠ [] := by decide
    have hy : strings.TrimSpace ['Y'] ≠ [] := by decide
    simp [loadAwsConfigOptions, hx, hy]

/-- C7 as stated fails on values made of white space: the role ARN `" "` is non-empty
and gives the direct credentials, and the pair `"X"`, `" "` of non-empty values gives
assume-without-MFA. -/
theorem loadAwsConfigOptions_strategy_counterexample :
    (" ".toList ≠ [] ∧
      loadAwsConfigOptions "default".toList ⟨" ".toList, []⟩ = ⟨"default".toList, none⟩) ∧
    ("X".toList ≠ [] ∧ " ".toList ≠ [] ∧
      loadAwsConfigOptions "default".toList ⟨"X".toList, " ".toList⟩ =
        ⟨"default".toList, some ⟨"X".toList, none, none⟩⟩) := by
  decide

/-- C8 fails in the code: `loadAwsConfig` hands the package variable `profile` (the
configuration key) to `config.WithSharedConfigProfile` in all three branches, not the
authentication profile that `assumeRole` received and whose descriptor it read.  With the
key `dev` mapped to the authentication profile `sso-main`, the descriptor is read for
`sso-main`, the configuration is loaded for `dev`, and the run fails although `sso-main`
exists. -/
theorem loadAwsConfig_uses_configuration_key :
    (∀ (profile : Str) (conf : SharedConfig),
      (loadAwsConfigOptions profile conf).SharedConfigProfile = profile) ∧
    (∀ (g : Flags) (env : Env) (conf : SharedConfig),
      loadAwsConfig g.profile env conf =
        env.LoadDefaultConfig ⟨g.profile,
          (loadAwsConfigOptions g.profile conf).AssumeRoleCredentialOptions⟩) ∧
    (awsconfCmd devFlags devEnv emptyWorld).1 = 1 ∧
    (awsconfCmd devFlags devEnv emptyWorld).2.calls =
      [Call.loadSharedAwsProfileConfig "sso-main".toList, Call.loadAwsConfig ⟨[], []⟩] ∧
    (awsconfCmd devFlags devEnv emptyWorld).2.logged =
      ["failed to get shared config profile"] ∧
    loadAwsConfigOptions devFlags.profile ⟨[], []⟩ = ⟨"dev".toList, none⟩ := by
  refine ⟨?_, ?_, by decide, by decide, by decide, by decide⟩
  · intro profile conf
    simp only [loadAwsConfigOptions]
    split_ifs <;> rfl
  · intro g env conf
    simp only [loadAwsConfig, loadAwsConfigOptions]
    split_ifs <;> rfl

/-- C9 fails in the code: when `viper.ReadInConfig()` returns an error, the body of
the command does nothing; the process ends with status 0, nothing is printed or
logged and no stage runs. -/
theorem awsconfCmd_unreadable_config (g : Flags) (env : Env) (w : World) (e : Error) :
    awsconfCmd g { env with ReadInConfig := some e } w = (0, w) := by
  rfl

/-- When the configuration is read, the status is 0 exactly when `assumeRole`
returns `nil`, and 1 otherwise. -/
theorem awsconfCmd_status (g : Flags) (env : Env) (w : World)
    (h : env.ReadInConfig = none) :
    ((awsconfCmd g env w).1 = 0 ∨ (awsconfCmd g env w).1 = 1) ∧
    ((awsconfCmd g env w).1 = 0 ↔
      (assumeRole g env (env.GetString ("aws.".toList ++ g.profile ++ ".roleArn".toList))
        (env.GetString ("aws.".toList ++ g.profile ++ ".awsProfile".toList))
        ((((w.print Color.cyan ["Profile:".toList,
            env.GetString ("aws.".toList ++ g.profile ++ ".awsProfile".toList)]).print Color.cyan
          ["Role:".toList, env.GetString ("aws.".toList ++ g.profile ++ ".roleArn".toList)]).print
          Color.cyan ["Region:".toList, g.region]).print Color.cyan
          ["Shell dotfile:".toList, g.dotFile])).1 = Result.ok) := by
  unfold awsconfCmd
  simp only [h]
  generalize assumeRole g env _ _ _ = r
  rcases r with ⟨_ | e | e, w2⟩ <;> simp

/-- C10: when loading the profile descriptor, building the authenticated context or the
remote role-assumption call returns an error `e`, `assumeRole` returns `e` itself, the
calls made are exactly the stages up to the failing one (neither `os.UserHomeDir` nor
`modifyShellProfile` is called), and no file is changed. -/
theorem assumeRole_fail_fast (g : Flags) (env : Env) (roleArn profile : Str) (w : World)
    (e : Error)
    (h : loadSharedAwsProfileConfig env profile = Except.error e ∨
      (∃ conf, loadSharedAwsProfileConfig env profile = Except.ok conf ∧
        loadAwsConfig g.profile env conf = Except.error e) ∨
      (∃ conf cfg, loadSharedAwsProfileConfig env profile = Except.ok conf ∧
        loadAwsConfig g.profile env conf = Except.ok cfg ∧
        TakeRole env cfg ⟨roleArn, env.nanoidNew⟩ = Except.error e)) :
    (assumeRole g env roleArn profile w).1 = Result.err e ∧
    (assumeRole g env roleArn profile w).2.files = w.files ∧
    (assumeRole g env roleArn profile w).2.calls = w.calls ++
      (match loadSharedAwsProfileConfig env profile with
       | Except.error _ => [Call.loadSharedAwsProfileConfig profile]
       | Except.ok conf =>
         match loadAwsConfig g.profile env conf with
         | Except.error _ => [Call.loadSharedAwsProfileConfig profile, Call.loadAwsConfig conf]
         | Except.ok _ => [Call.loadSharedAwsProfileConfig profile, Call.loadAwsConfig conf,
             Call.TakeRole ⟨roleArn, env.nanoidNew⟩]) ∧
    Call.UserHomeDir ∉ (assumeRole g env roleArn profile w).2.calls.drop w.calls.length ∧
    ∀ path, Call.modifyShellProfile path ∉
      (assumeRole g env roleArn profile w).2.calls.drop w.calls.length := by
  rcases h with h1 | ⟨conf, h1, h2⟩ | ⟨conf, cfg, h1, h2, h3⟩
  · simp [assumeRole, h1, World.call, World.print]
  · simp [assumeRole, h1, h2, World.call, World.print]
  · simp [assumeRole, h1, h2, h3, World.call, World.print]

/-- C10 on a run whose role-assumption call is refused: the error comes back, three
stages ran and the world has no file, as before. -/
theorem assumeRole_fail_fast_witness :
    (assumeRole devFlags refusedEnv "arn:aws:iam::1:role/target".toList "sso-main".toList
        emptyWorld).1 = Result.err "AccessDenied" ∧
    (assumeRole devFlags refusedEnv "arn:aws:iam::1:role/target".toList "sso-main".toList
        emptyWorld).2.files = emptyWorld.files :=
  let h := assumeRole_fail_fast devFlags refusedEnv "arn:aws:iam::1:role/target".toList
    "sso-main".toList emptyWorld "AccessDenied"
    (Or.inr (Or.inr ⟨⟨[], []⟩, ⟨⟨"dev".toList, none⟩⟩, rfl, rfl, rfl⟩))
  ⟨h.1, h.2.1⟩

end Vcli
